import Mathlib

/-!
Verification development for the schema mocking engine (mocking.ts).

The JavaScript value universe is embedded shallowly: objects carry a list of
named property descriptors (value plus enumerability) and an optional
prototype, arrays are lists, functions are references into a function
environment supplied to the semantics, and MockList instances are a dedicated
constructor carrying the length specification and the optional wrapped
function reference.  Randomness (Math.random) is modelled as an explicit
stream of rationals in [0, 1) threaded through every computation, and thrown
exceptions are modelled with Except String.
-/

namespace GqlMock

/-- Length specification of a MockList: a fixed integer or a [low, high] pair. -/
inductive MLLen where
  | fixed (n : Int)
  | range (low high : Int)

mutual
/-- Embedded JavaScript values. -/
inductive JsVal where
  | undefined
  | null
  | bool (b : Bool)
  | num (q : Rat)
  | str (s : String)
  | arr (elems : List JsVal)
  | obj (o : JsObj)
  | fnRef (id : Nat)
  | mockListV (len : MLLen) (wrapped : Option Nat)

/-- A JavaScript object: own properties plus an optional prototype. -/
inductive JsObj where
  | mk (props : List JsProp) (proto : Option JsObj)

/-- An own property: name, value, and the enumerable attribute. -/
inductive JsProp where
  | mk (name : String) (value : JsVal) (enumerable : Bool)
end

def JsProp.name : JsProp → String
  | .mk n _ _ => n

def JsProp.value : JsProp → JsVal
  | .mk _ v _ => v

def JsProp.enumerable : JsProp → Bool
  | .mk _ _ e => e

def JsObj.props : JsObj → List JsProp
  | .mk ps _ => ps

def JsObj.proto : JsObj → Option JsObj
  | .mk _ p => p

/-- The empty plain object. -/
def JsObj.empty : JsObj := .mk [] none

/-- Object.getOwnPropertyDescriptor: first own property with the given name. -/
def getOwn (o : JsObj) (k : String) : Option JsProp :=
  o.props.find? (fun p => p.name == k)

/-- Property lookup along the prototype chain (the [[Get]] walk). -/
def chainDesc : JsObj → String → Option JsProp
  | .mk props proto, k =>
    Option.or (props.find? (fun p => p.name == k))
      (match proto with
       | some parent => chainDesc parent k
       | none => none)

/-- JavaScript truthiness (NaN is not modelled). -/
def jsTruthy : JsVal → Bool
  | .undefined => false
  | .null => false
  | .bool b => b
  | .num q => !(q == 0)
  | .str s => !(s == "")
  | _ => true

def isUndefined : JsVal → Bool
  | .undefined => true
  | _ => false

/-- isObject from the source: thing === Object(thing) && !Array.isArray(thing).
Functions and MockList instances satisfy it; arrays and primitives do not. -/
def isObject : JsVal → Bool
  | .obj _ => true
  | .fnRef _ => true
  | .mockListV _ _ => true
  | _ => false

/-- Property read on an arbitrary value, as in root[fieldName].  Objects walk
their prototype chain; arrays expose length and index properties; strings
expose length; every other primitive read yields undefined. -/
def jsGetVal (v : JsVal) (k : String) : JsVal :=
  match v with
  | .obj o =>
    match chainDesc o k with
    | some p => p.value
    | none => .undefined
  | .arr xs =>
    if k == "length" then .num xs.length
    else
      match k.toNat? with
      | some i => (xs.get? i).getD .undefined
      | none => .undefined
  | .str s => if k == "length" then .num s.length else .undefined
  | _ => .undefined

/-- JavaScript property write on a plain data object: an existing own property
keeps its attributes and gets the new value, otherwise an enumerable own
property is appended. -/
def setPropObj (o : JsObj) (k : String) (v : JsVal) : JsObj :=
  if (o.props.find? (fun p => p.name == k)).isSome then
    .mk (o.props.map (fun p => if p.name == k then .mk k v p.enumerable else p)) o.proto
  else
    .mk (o.props ++ [.mk k v true]) o.proto

/-- Object.defineProperty: replace the own property or append it, carrying the
given descriptor verbatim. -/
def defineProp (o : JsObj) (k : String) (d : JsProp) : JsObj :=
  if (o.props.find? (fun p => p.name == k)).isSome then
    .mk (o.props.map (fun p => if p.name == k then d else p)) o.proto
  else
    .mk (o.props ++ [d]) o.proto

/-- The own enumerable properties, as iterated by Object.keys / Object.assign. -/
def ownEnumProps (o : JsObj) : List JsProp :=
  o.props.filter (fun p => p.enumerable)

/-- Object.getOwnPropertyNames: every own property name, enumerable or not. -/
def ownPropNames (o : JsObj) : List String :=
  o.props.map JsProp.name

/-- Object.assign(target, source) restricted to object operands: the own
enumerable properties of the source are written onto the target in order. -/
def objAssign (target source : JsObj) : JsObj :=
  (ownEnumProps source).foldl (fun acc p => setPropObj acc p.name p.value) target

/-- mergeObjects from the source: Object.assign(a, b).  A source that is not a
plain object contributes no own enumerable properties in this model (function
and MockList operands carry no modelled properties; a primitive target would
be boxed in JavaScript and is unreachable in this development). -/
def mergeObjects (a b : JsVal) : JsVal :=
  match a, b with
  | .obj ta, .obj sb => .obj (objAssign ta sb)
  | .obj ta, _ => .obj ta
  | _, _ => a

/-- copyOwnPropsIfNotPresent(target, source): for every own property name of
the source (enumerable or not), copy its descriptor onto the target unless the
target already has an own property of that name. -/
def copyOwnPropsIfNotPresent (target source : JsObj) : JsObj :=
  (ownPropNames source).foldl
    (fun acc k =>
      if (getOwn acc k).isSome then acc
      else
        match getOwn source k with
        | some d => defineProp acc k d
        | none => acc)
    target

/-- The while loop of copyOwnProps over one source: copy the own properties of
the source, then of its prototype, walking up the chain. -/
def copyChain (target : JsObj) : JsObj → JsObj
  | .mk props proto =>
    let t := copyOwnPropsIfNotPresent target (.mk props proto)
    match proto with
    | some parent => copyChain t parent
    | none => t

/-- copyOwnProps(target, ...sources): each source contributes its whole
prototype chain, in order; earlier sources win because properties already
present on the target are never overwritten. -/
def copyOwnProps (target : JsObj) (sources : List JsObj) : JsObj :=
  sources.foldl copyChain target

/-- mergeMocks from the source, with the generic mock function represented by
the value it returns for the current invocation (registry factories are pure
in this model, so repeated calls yield the same value).  Arrays merge
element-wise, record-shaped values merge by Object.assign with the custom
mock as the source, and anything else is returned unchanged. -/
def mergeMocks (generic : JsVal) : JsVal → JsVal
  | .arr elems => .arr (elems.attach.map (fun el => mergeMocks generic el.val))
  | v => if isObject v then mergeObjects generic v else v
termination_by v => sizeOf v
decreasing_by
  have := List.sizeOf_lt_of_mem el.property
  simp only [JsVal.arr.sizeOf_spec]
  omega

theorem mergeMocks_arr (generic : JsVal) (elems : List JsVal) :
    mergeMocks generic (.arr elems) = .arr (elems.map (mergeMocks generic)) := by
  rw [mergeMocks]
  exact congrArg JsVal.arr (List.attach_map_val elems (mergeMocks generic))

/-- The schema type algebra: NonNull and List wrappers over named types.  A
union carries its declared member object type names; an enum carries the
underlying values of its declared enum values. -/
inductive GType where
  | nonNull (ofType : GType)
  | list (ofType : GType)
  | objectT (name : String)
  | unionT (name : String) (members : List String)
  | interfaceT (name : String)
  | enumT (name : String) (values : List JsVal)
  | scalarT (name : String)

/-- getNullableType: strip one NonNull wrapper. -/
def getNullableType : GType → GType
  | .nonNull t => t
  | t => t

/-- getNamedType: strip all NonNull and List wrappers. -/
def getNamedType : GType → GType
  | .nonNull t => getNamedType t
  | .list t => getNamedType t
  | t => t

/-- The name property of a type: undefined (none) on wrapper types. -/
def gname : GType → Option String
  | .objectT n => some n
  | .unionT n _ => some n
  | .interfaceT n => some n
  | .enumT n _ => some n
  | .scalarT n => some n
  | _ => none

def isAbstractType : GType → Bool
  | .unionT _ _ => true
  | .interfaceT _ => true
  | _ => false

/-- Association-list lookup by string key. -/
def lookupStr (l : List (String × α)) (k : String) : Option α :=
  match l.find? (fun kv => kv.1 == k) with
  | some kv => some kv.2
  | none => none

/-- The resolution context (root, args, context, info) handed to every
resolution step and to user-supplied factory functions. -/
structure MCtx where
  root : JsVal
  args : JsVal
  ctxt : JsVal
  info : JsVal

/-- The Math.random stream: one rational in [0, 1) per draw. -/
def RStream : Type := Nat → Rat

def rhead (rs : RStream) : Rat := rs 0

def rtail (rs : RStream) : RStream := fun n => rs (n + 1)

/-- An abstract-type resolution function: its declared parameter count (the
JavaScript function length) and its behaviour, taking the resolved value and
the schema type map. -/
structure RTFn where
  arity : Nat
  run : JsVal → List (String × GType) → Option GType

/-- An installed field resolution function, with the random stream threaded
explicitly and exceptions in Except. -/
def RFn : Type := MCtx → RStream → Except String (JsVal × RStream)

/-- A field of an object type: its schema type and its current resolution
function, if any. -/
structure FieldDef where
  type : GType
  resolve : Option RFn

/-- The schema model: root operation type names, object types with their
fields, the possible-types table for interfaces, the full type map, and the
current abstract-type resolution functions. -/
structure SchemaModel where
  queryTypeName : Option String
  mutationTypeName : Option String
  objectFields : List (String × List (String × FieldDef))
  possibleTypes : List (String × List String)
  typeMap : List (String × GType)
  resolveTypes : List (String × RTFn)

/-- The ambient state of one addMockFunctionsToSchema call: the function
environment interpreting function references, the external uuid generator,
the mock function registry, and the schema. -/
structure MockEnv where
  fenv : Nat → MCtx → JsVal
  uuidV4 : Rat → String
  mockFns : List (String × Nat)
  schema : SchemaModel

/-- mockFunctionMap.has / .get on the name of a type (undefined names never
hit the map). -/
def mockFnFor (env : MockEnv) (t : GType) : Option Nat :=
  match gname t with
  | some n => lookupStr env.mockFns n
  | none => none

/-- Math.round: round half toward positive infinity. -/
def jsRound (q : Rat) : Int := ⌊q + (1 : Rat) / 2⌋

/-- The default scalar generator table, as a function of one random draw.  The
external uuid generator is an environment parameter. -/
def defaultMock (env : MockEnv) (name : String) : Option (Rat → JsVal) :=
  if name == "Int" then some (fun r => .num ((jsRound (r * 200) : Int) - 100))
  else if name == "Float" then some (fun r => .num (r * 200 - 100))
  else if name == "String" then some (fun _ => .str "Hello World")
  else if name == "Boolean" then some (fun r => .bool (decide ((1 : Rat) / 2 < r)))
  else if name == "ID" then some (fun r => .str (env.uuidV4 r))
  else none

/-- getRandomElement: ary[Math.floor(Math.random() * ary.length)]; an
out-of-range index reads undefined (none). -/
def getRandomElement (ary : List α) (r : Rat) : Option α :=
  let i : Int := ⌊r * (ary.length : Rat)⌋
  if i < 0 then none else ary.get? i.toNat

/-- MockList.randint: Math.floor(Math.random() * ((high - low) + 1)) + low. -/
def mlRandint (low high : Int) (r : Rat) : Int :=
  ⌊r * (((high : Rat) - low) + 1)⌋ + low

/-- new Array(n) throws a RangeError for a negative length. -/
def rangeErrorMsg : String := "RangeError: Invalid array length"

/-- Stand-in for the TypeError raised when the engine dereferences an
undefined type (for example the ofType of a non-list type). -/
def typeErrorMsg : String := "TypeError"

/-- Resolve the count of a MockList invocation: a fixed length is used as is,
a [low, high] pair draws randint(low, high) afresh from the stream; the
resulting new Array throws for a negative length. -/
def mlCount (len : MLLen) (rs : RStream) : Except String (Nat × RStream) :=
  match len with
  | .fixed n => if n < 0 then .error rangeErrorMsg else .ok (n.toNat, rs)
  | .range low high =>
    let L := mlRandint low high (rhead rs)
    if L < 0 then .error rangeErrorMsg else .ok (L.toNat, rtail rs)

/-- The element loop of MockList.mock when the field type has no ofType (so
the fallback to the ambient resolver, and the expansion of a nested MockList,
would dereference an undefined element type).  Wrapped-function results that
are plain values are still used as is. -/
def fillNonList (env : MockEnv) (wrapped : Option Nat) (ctx : MCtx) :
    Nat → RStream → Except String (List JsVal × RStream)
  | 0, rs => .ok ([], rs)
  | Nat.succ k, rs =>
    match wrapped with
    | some fid =>
      match env.fenv fid ctx with
      | .mockListV _ _ => .error typeErrorMsg
      | v =>
        match fillNonList env wrapped ctx k rs with
        | .error e => .error e
        | .ok (xs, rs1) => .ok (v :: xs, rs1)
    | none => .error typeErrorMsg

/-- MockList.mock specialised to a field type without an ofType; agrees with
mlMock there (lemma mlMock_nonList_eq below). -/
def mlMockNonList (env : MockEnv) (len : MLLen) (wrapped : Option Nat) (ctx : MCtx)
    (rs : RStream) : Except String (JsVal × RStream) :=
  match mlCount len rs with
  | .error e => .error e
  | .ok (n, rs1) =>
    match fillNonList env wrapped ctx n rs1 with
    | .error e => .error e
    | .ok (xs, rs2) => .ok (.arr xs, rs2)

/-- The body of mockType specialised to a bare object type, as invoked for the
member type picked in the union and interface branches (typeName and
fieldName are undefined there, so the root lookup uses the key "undefined").
The list branch cannot fire, so a MockList returned by a callable root entry
is expanded with the non-list loop. -/
def mockNamedObject (env : MockEnv) (name : String) (ctx : MCtx) (rs : RStream) :
    Except String (JsVal × RStream) :=
  let key := "undefined"
  if jsTruthy ctx.root && !(isUndefined (jsGetVal ctx.root key)) then
    match (match jsGetVal ctx.root key with
           | JsVal.fnRef fid =>
             match env.fenv fid ctx with
             | JsVal.mockListV l w => mlMockNonList env l w ctx rs
             | v => Except.ok (v, rs)
           | v => Except.ok (v, rs)) with
    | .error e => .error e
    | .ok (result0, rs1) =>
      match lookupStr env.mockFns name with
      | some gid => .ok (mergeMocks (env.fenv gid ctx) result0, rs1)
      | none => .ok (result0, rs1)
  else
    match lookupStr env.mockFns name with
    | some gid => .ok (env.fenv gid ctx, rs)
    | none => .ok (.obj JsObj.empty, rs)

theorem sizeOf_getNullableType_le (t : GType) : sizeOf (getNullableType t) ≤ sizeOf t := by
  cases t <;> simp [getNullableType]

theorem prodLex3 {a a' b b' c c' : Nat}
    (h : a' < a ∨ (a' = a ∧ (b' < b ∨ (b' = b ∧ c' < c)))) :
    Prod.Lex (· < ·) (Prod.Lex (· < ·) (· < ·)) (a', b', c') (a, b, c) := by
  rcases h with h | ⟨rfl, h | ⟨rfl, h⟩⟩
  · exact Prod.Lex.left _ _ h
  · exact Prod.Lex.right _ (Prod.Lex.left _ _ h)
  · exact Prod.Lex.right _ (Prod.Lex.right _ h)

mutual
/-- The Mock Value Resolver: the resolution function produced by
mockType(type, typeName, fieldName), applied to one invocation context and
the ambient random stream.  Branch order follows the source: existing root
value (with callable entries invoked and MockList results expanded, then the
registry merge), then list, then registry entry, then object, union,
interface, enum, the default scalar table, and finally the no-mock error. -/
def mockType (env : MockEnv) (tpe : GType) (typeName fieldName : Option String)
    (ctx : MCtx) (rs : RStream) : Except String (JsVal × RStream) :=
  let fieldType := getNullableType tpe
  let namedFieldType := getNamedType fieldType
  let key := fieldName.getD "undefined"
  if jsTruthy ctx.root && !(isUndefined (jsGetVal ctx.root key)) then
    match step1Value env fieldType key ctx rs with
    | .error e => .error e
    | .ok (result0, rs1) =>
      match mockFnFor env namedFieldType with
      | some gid => .ok (mergeMocks (env.fenv gid ctx) result0, rs1)
      | none => .ok (result0, rs1)
  else
    match hft : fieldType with
    | .list ofType =>
      match mockType env ofType none none ctx rs with
      | .error e => .error e
      | .ok (v1, rs1) =>
        match mockType env ofType none none ctx rs1 with
        | .error e => .error e
        | .ok (v2, rs2) => .ok (.arr [v1, v2], rs2)
    | ft =>
      match mockFnFor env ft with
      | some gid => .ok (env.fenv gid ctx, rs)
      | none =>
        match ft with
        | .objectT _ => .ok (.obj JsObj.empty, rs)
        | .unionT _ members =>
          match getRandomElement members (rhead rs) with
          | none => .error typeErrorMsg
          | some m =>
            match mockNamedObject env m ctx (rtail rs) with
            | .error e => .error e
            | .ok (v, rs1) =>
              .ok (mergeObjects (.obj (.mk [.mk "typename" (.str m) true] none)) v, rs1)
        | .interfaceT n =>
          match getRandomElement ((lookupStr env.schema.possibleTypes n).getD [])
              (rhead rs) with
          | none => .error typeErrorMsg
          | some m =>
            match mockNamedObject env m ctx (rtail rs) with
            | .error e => .error e
            | .ok (v, rs1) =>
              .ok (mergeObjects (.obj (.mk [.mk "typename" (.str m) true] none)) v, rs1)
        | .enumT _ values =>
          match getRandomElement values (rhead rs) with
          | none => .error typeErrorMsg
          | some v => .ok (v, rtail rs)
        | ft2 =>
          match gname ft2 with
          | some n =>
            match defaultMock env n with
            | some gen => .ok (gen (rhead rs), rtail rs)
            | none => .error ("No mock defined for type \"" ++ n ++ "\"")
          | none => .error ("No mock defined for type \"undefined\"")
termination_by (sizeOf tpe, 3, 0)
decreasing_by
all_goals simp_wf
· apply prodLex3
  have h := sizeOf_getNullableType_le tpe
  omega
· apply prodLex3
  have h := sizeOf_getNullableType_le tpe
  have h2 : sizeOf (getNullableType tpe) = sizeOf (GType.list ofType) :=
    congrArg sizeOf hft
  have h3 : sizeOf (GType.list ofType) = 1 + sizeOf ofType := by simp
  omega
· apply prodLex3
  have h := sizeOf_getNullableType_le tpe
  have h2 : sizeOf (getNullableType tpe) = sizeOf (GType.list ofType) :=
    congrArg sizeOf hft
  have h3 : sizeOf (GType.list ofType) = 1 + sizeOf ofType := by simp
  omega

/-- Step 1 of mockType before the registry merge: the existing root entry is
used as is when it is a plain value; a callable entry is invoked, and a
MockList result is expanded inline against the current field type. -/
def step1Value (env : MockEnv) (fieldType : GType) (key : String) (ctx : MCtx)
    (rs : RStream) : Except String (JsVal × RStream) :=
  match jsGetVal ctx.root key with
  | .fnRef fid =>
    match env.fenv fid ctx with
    | .mockListV l w => mlMock env l w ctx fieldType rs
    | v => .ok (v, rs)
  | v => .ok (v, rs)
termination_by (sizeOf fieldType, 2, 0)
decreasing_by
all_goals simp_wf
· apply prodLex3
  omega

/-- MockList.mock: resolve the count, then fill the array; the ambient
mockType is the mockTypeFunc argument at every call site in the source, so it
is called directly here. -/
def mlMock (env : MockEnv) (len : MLLen) (wrapped : Option Nat) (ctx : MCtx)
    (fieldType : GType) (rs : RStream) : Except String (JsVal × RStream) :=
  match mlCount len rs with
  | .error e => .error e
  | .ok (n, rs1) =>
    match fillList env wrapped ctx fieldType n rs1 with
    | .error e => .error e
    | .ok (xs, rs2) => .ok (.arr xs, rs2)
termination_by (sizeOf fieldType, 1, 0)
decreasing_by
all_goals simp_wf
· apply prodLex3
  omega

/-- One element of the MockList.mock loop: with a wrapped function, invoke it
and expand a nested MockList one level down the list type; without one,
independently invoke the ambient resolver on the element type.  A field type
without an ofType makes the element step dereference undefined. -/
def fillElem (env : MockEnv) (wrapped : Option Nat) (ctx : MCtx) (fieldType : GType)
    (rs : RStream) : Except String (JsVal × RStream) :=
  match wrapped with
  | some fid =>
    match env.fenv fid ctx with
    | JsVal.mockListV l2 w2 =>
      match fieldType with
      | .list ofType => mlMock env l2 w2 ctx (getNullableType ofType) rs
      | _ => Except.error typeErrorMsg
    | v => Except.ok (v, rs)
  | none =>
    match fieldType with
    | .list ofType => mockType env ofType none none ctx rs
    | _ => Except.error typeErrorMsg
termination_by (sizeOf fieldType, 0, 1)
decreasing_by
all_goals simp_wf
· apply prodLex3
  have h := sizeOf_getNullableType_le ofType
  omega
· apply prodLex3
  omega

/-- The element loop of MockList.mock, building the array front to back; each
index gets an independently generated element. -/
def fillList (env : MockEnv) (wrapped : Option Nat) (ctx : MCtx) (fieldType : GType) :
    Nat → RStream → Except String (List JsVal × RStream)
  | 0, rs => .ok ([], rs)
  | Nat.succ k, rs =>
    match fillElem env wrapped ctx fieldType rs with
    | .error e => .error e
    | .ok (v, rs1) =>
      match fillList env wrapped ctx fieldType k rs1 with
      | .error e => .error e
      | .ok (xs, rs2) => .ok (v :: xs, rs2)
termination_by n _ => (sizeOf fieldType, 0, 2 * n + 2)
decreasing_by
all_goals simp_wf
· apply prodLex3
  omega
· apply prodLex3
  omega
end

/-- String coercion of a value used as a property key (the typename field
holds the chosen concrete type, whose string coercion is its name and is what
this model stores there). -/
def jsKeyString : JsVal → String
  | .str s => s
  | .undefined => "undefined"
  | .null => "null"
  | .bool b => toString b
  | .num q => toString q
  | _ => "[object Object]"

/-- The fallback abstract-type resolution function installed by
assignResolveType: read the convention field typename off the value being
resolved and look the concrete type up in the schema type map.  Its declared
parameter list is (data, context, info). -/
def fallbackResolveType : RTFn where
  arity := 3
  run := fun data typeMap => lookupStr typeMap (jsKeyString (jsGetVal data "typename"))

/-- assignResolveType, acting on the current abstract-type resolver of the
named type under the given field type: keep it when the Preserve flag is set
and the existing resolver is parameterized, otherwise install the fallback on
union and interface types; non-abstract types are left alone. -/
def assignResolveType (preserveResolvers : Bool) (tpe : GType)
    (current : Option RTFn) : Option RTFn :=
  let fieldType := getNullableType tpe
  let namedFieldType := getNamedType fieldType
  let oldResolveType := if isAbstractType namedFieldType then current else none
  if preserveResolvers && oldResolveType.isSome &&
      !((oldResolveType.map RTFn.arity).getD 0 == 0) then
    current
  else if isAbstractType namedFieldType then
    some fallbackResolveType
  else
    current

/-- The object underlying a value passed to copyOwnProps.  Only plain objects
carry modelled properties; function and MockList operands (which satisfy
isObject) contribute none here. -/
def valueProps : JsVal → JsObj
  | .obj o => o
  | _ => JsObj.empty

/-- The merge callback of the preserve-mode composed resolver, applied to the
two completed values of Promise.all([mockResolver(...), oldResolver(...)]):
two record-shaped values are merged by copyOwnProps onto a fresh object with
the real value as the earlier source; otherwise the real value wins unless it
is undefined. -/
def mergeMockAndReal (mockedValue resolvedValue : JsVal) : JsVal :=
  if isObject mockedValue && isObject resolvedValue then
    .obj (copyOwnProps JsObj.empty [valueProps resolvedValue, valueProps mockedValue])
  else
    match resolvedValue with
    | .undefined => mockedValue
    | rv => rv

/-- The preserve-mode composed resolver: run the mock resolution and the
pre-existing resolution (Promise.all starts both and waits for both; a
rejection of either rejects the composition), then merge. -/
def composedResolver (mockResolver oldResolver : RFn) : RFn := fun ctx rs =>
  match mockResolver ctx rs with
  | .error e => .error e
  | .ok (mockedValue, rs1) =>
    match oldResolver ctx rs1 with
    | .error e => .error e
    | .ok (resolvedValue, rs2) => .ok (mergeMockAndReal mockedValue resolvedValue, rs2)

/-- The probe context with which a root-type registry entry is invoked
eagerly at setup time: rootMock(undefined, {}, {}, {}). -/
def probeCtx : MCtx where
  root := .undefined
  args := .obj JsObj.empty
  ctxt := .obj JsObj.empty
  info := .obj JsObj.empty

/-- const updatedRoot = root || {}; updatedRoot[fieldName] = v.  The first
component is updatedRoot; the second is the value the caller's root variable
refers to afterwards: a truthy root object is aliased, so the write is
visible to the caller, while a falsy root is replaced by a fresh object and
stays untouched.  A property write on a truthy primitive is a silent no-op
outside strict mode. -/
def updatedRootPair (root : JsVal) (key : String) (v : JsVal) : JsVal × JsVal :=
  if jsTruthy root then
    match root with
    | .obj o =>
      let u := JsVal.obj (setPropObj o key v)
      (u, u)
    | other => (other, other)
  else
    (.obj (setPropObj JsObj.empty key v), root)

/-- The resolution function installed for a root query/mutation field whose
root-type registry entry defines a truthy sub-entry for the field: set the
sub-entry's value for this invocation on the updated root and delegate to
mockType as if it had been present on the root all along.  The second
component exposes the caller's root after the invocation. -/
def rootFieldResolver (env : MockEnv) (rootMockId : Nat) (ftype : GType)
    (typeName fieldName : String) (ctx : MCtx) (rs : RStream) :
    Except String (JsVal × RStream) × JsVal :=
  let subValue := jsGetVal (env.fenv rootMockId ctx) fieldName
  let pair := updatedRootPair ctx.root fieldName subValue
  (mockType env ftype (some typeName) (some fieldName)
    { ctx with root := pair.1 } rs, pair.2)

/-- Which mock resolver the installer picks for a field. -/
inductive ResolverChoice where
  | rootFieldSpecial (rootMockId : Nat)
  | ordinary

/-- The root-field special case decision of the installer: on the root query
or mutation type, with a registry entry for the root type whose eager probe
yields a truthy value for this field name, the special resolver is used;
otherwise the ordinary mockType resolver. -/
def chooseMockResolver (env : MockEnv) (typeName fieldName : String) : ResolverChoice :=
  let isOnQueryType :=
    match env.schema.queryTypeName with
    | some q => q == typeName
    | none => false
  let isOnMutationType :=
    match env.schema.mutationTypeName with
    | some m => m == typeName
    | none => false
  if isOnQueryType || isOnMutationType then
    match lookupStr env.mockFns typeName with
    | some rootMockId =>
      if jsTruthy (jsGetVal (env.fenv rootMockId probeCtx) fieldName) then
        .rootFieldSpecial rootMockId
      else .ordinary
    | none => .ordinary
  else .ordinary

/-- Realize the chosen mock resolver as a resolution function (the caller
root mutation of the special case is not observable through RFn; it is
exposed by rootFieldResolver). -/
def mockResolverFor (env : MockEnv) (choice : ResolverChoice) (ftype : GType)
    (typeName fieldName : String) : RFn :=
  match choice with
  | .rootFieldSpecial rootMockId => fun ctx rs =>
    (rootFieldResolver env rootMockId ftype typeName fieldName ctx rs).1
  | .ordinary => fun ctx rs =>
    mockType env ftype (some typeName) (some fieldName) ctx rs

/-- Lines 250-269 of the source: install the mock resolver, composing it with
a pre-existing resolution function when the Preserve flag is set. -/
def installedResolver (env : MockEnv) (preserveResolvers : Bool) (fd : FieldDef)
    (typeName fieldName : String) : RFn :=
  let mockResolver :=
    mockResolverFor env (chooseMockResolver env typeName fieldName) fd.type
      typeName fieldName
  match fd.resolve with
  | some oldResolver =>
    if preserveResolvers then composedResolver mockResolver oldResolver
    else mockResolver
  | none => mockResolver

/-- Replace the value under a key or append it. -/
def upsert (l : List (String × α)) (k : String) (v : α) : List (String × α) :=
  if (l.find? (fun kv => kv.1 == k)).isSome then
    l.map (fun kv => if kv.1 == k then (k, v) else kv)
  else
    l ++ [(k, v)]

/-- Apply assignResolveType for one field type to the schema's abstract-type
resolver table. -/
def updateResolveTypes (preserveResolvers : Bool) (ftype : GType)
    (rts : List (String × RTFn)) : List (String × RTFn) :=
  let named := getNamedType (getNullableType ftype)
  if isAbstractType named then
    match gname named with
    | some n =>
      match assignResolveType preserveResolvers ftype (lookupStr rts n) with
      | some rt => upsert rts n rt
      | none => rts
    | none => rts
  else rts

/-- forEachField over one object type: assign abstract-type resolution for
each field type and install the composed field resolver. -/
def installFields (env : MockEnv) (preserveResolvers : Bool) (typeName : String)
    (fields : List (String × FieldDef)) (rts : List (String × RTFn)) :
    List (String × FieldDef) × List (String × RTFn) :=
  fields.foldl
    (fun acc fd =>
      let rts1 := updateResolveTypes preserveResolvers fd.2.type acc.2
      let newFd : FieldDef :=
        { fd.2 with
          resolve := some (installedResolver env preserveResolvers fd.2 typeName fd.1) }
      (acc.1 ++ [(fd.1, newFd)], rts1))
    ([], rts)

/-- forEachField over the whole schema. -/
def installAll (env : MockEnv) (preserveResolvers : Bool) (schema : SchemaModel) :
    SchemaModel :=
  let folded :=
    schema.objectFields.foldl
      (fun acc tf =>
        let pair := installFields env preserveResolvers tf.1 tf.2 acc.2
        (acc.1 ++ [(tf.1, pair.1)], pair.2))
      ([], schema.resolveTypes)
  { schema with objectFields := folded.1, resolveTypes := folded.2 }

/-- Object.keys paired with the entry values: the own enumerable properties
of the registry argument. -/
def jsvalEntries (v : JsVal) : List (String × JsVal) :=
  match v with
  | .obj o => (ownEnumProps o).map (fun p => (p.name, p.value))
  | _ => []

def fnIdOf : JsVal → Nat
  | .fnRef i => i
  | _ => 0

/-- addMockFunctionsToSchema: validate the schema argument, the registry
argument, and every registry entry, then walk every field and install the
resolvers.  The three configuration errors are raised before installation
touches any field, so an error leaves the schema unmodified. -/
def addMockFunctionsToSchema (fenv : Nat → MCtx → JsVal) (uuidV4 : Rat → String)
    (schema : Option SchemaModel) (mocks : JsVal) (preserveResolvers : Bool) :
    Except String SchemaModel :=
  match schema with
  | none => .error "Must provide schema to mock"
  | some s =>
    if !(isObject mocks) then .error "mocks must be of type Object"
    else
      let entries := jsvalEntries mocks
      match entries.find? (fun e => !(e.2 matches JsVal.fnRef _)) with
      | some bad => .error ("mockFunctionMap[" ++ bad.1 ++ "] must be a function")
      | none =>
        let env : MockEnv :=
          { fenv := fenv
            uuidV4 := uuidV4
            mockFns := entries.map (fun e => (e.1, fnIdOf e.2))
            schema := s }
        .ok (installAll env preserveResolvers s)

/-- The MockList constructor: the length is stored unvalidated; a second
argument, when not undefined, must be a function. -/
def mockListConstructor (len : MLLen) (wrappedFunction : JsVal) : Except String JsVal :=
  match wrappedFunction with
  | .undefined => .ok (.mockListV len none)
  | .fnRef fid => .ok (.mockListV len (some fid))
  | _ => .error "Second argument to MockList must be a function or undefined"

/-! Lemmas about the object operations. -/

@[simp] theorem JsProp.name_mk (n : String) (v : JsVal) (e : Bool) :
    (JsProp.mk n v e).name = n := rfl

@[simp] theorem JsProp.value_mk (n : String) (v : JsVal) (e : Bool) :
    (JsProp.mk n v e).value = v := rfl

@[simp] theorem JsProp.enumerable_mk (n : String) (v : JsVal) (e : Bool) :
    (JsProp.mk n v e).enumerable = e := rfl

@[simp] theorem JsObj.props_mk (ps : List JsProp) (pr : Option JsObj) :
    (JsObj.mk ps pr).props = ps := rfl

@[simp] theorem JsObj.proto_mk (ps : List JsProp) (pr : Option JsObj) :
    (JsObj.mk ps pr).proto = pr := rfl

/-- The value component of an own-property lookup. -/
def getOwnVal (o : JsObj) (k : String) : Option JsVal :=
  (getOwn o k).map JsProp.value

theorem getOwn_name {o : JsObj} {k : String} {d : JsProp} (h : getOwn o k = some d) :
    d.name = k := by
  have := List.find?_some h
  simpa using this


theorem findName_cons (q : JsProp) (t : List JsProp) (k : String) :
    (q :: t).find? (fun p => p.name == k) =
      if q.name = k then some q else t.find? (fun p => p.name == k) := by
  by_cases h : q.name = k
  · rw [if_pos h]
    apply List.find?_cons_of_pos
    simpa using h
  · rw [if_neg h]
    apply List.find?_cons_of_neg
    simpa using h

theorem find?_map_setProp_ne (t : List JsProp) (k k' : String) (v : JsVal)
    (h : k' ≠ k) :
    (t.map (fun p => if p.name == k then JsProp.mk k v p.enumerable else p)).find?
      (fun p => p.name == k') = t.find? (fun p => p.name == k') := by
  induction t with
  | nil => rfl
  | cons q t ih =>
    by_cases hq : q.name = k
    · have hbeq : (q.name == k) = true := by simpa using hq
      simp only [List.map_cons, if_pos hbeq, findName_cons, JsProp.name_mk]
      rw [if_neg (Ne.symm h), if_neg (show ¬(q.name = k') by rw [hq]; exact Ne.symm h)]
      exact ih
    · have hbeq : ¬((q.name == k) = true) := by simpa using hq
      simp only [List.map_cons, if_neg hbeq, findName_cons]
      by_cases hq2 : q.name = k'
      · rw [if_pos hq2, if_pos hq2]
      · rw [if_neg hq2, if_neg hq2]
        exact ih

theorem find?_map_setProp_self (t : List JsProp) (k : String) (v : JsVal)
    (hfound : (t.find? (fun p => p.name == k)).isSome) :
    Option.map JsProp.value
      ((t.map (fun p => if p.name == k then JsProp.mk k v p.enumerable else p)).find?
        (fun p => p.name == k)) = some v := by
  induction t with
  | nil => simp at hfound
  | cons q t ih =>
    by_cases hq : q.name = k
    · have hbeq : (q.name == k) = true := by simpa using hq
      simp only [List.map_cons, if_pos hbeq, findName_cons, JsProp.name_mk]
      simp
    · have hbeq : ¬((q.name == k) = true) := by simpa using hq
      simp only [List.map_cons, if_neg hbeq, findName_cons] at hfound ⊢
      rw [if_neg hq]
      rw [if_neg hq] at hfound
      exact ih hfound

theorem find?_map_define_ne (t : List JsProp) (k k' : String) (d : JsProp)
    (hd : d.name = k) (h : k' ≠ k) :
    (t.map (fun p => if p.name == k then d else p)).find?
      (fun p => p.name == k') = t.find? (fun p => p.name == k') := by
  induction t with
  | nil => rfl
  | cons q t ih =>
    by_cases hq : q.name = k
    · have hbeq : (q.name == k) = true := by simpa using hq
      simp only [List.map_cons, if_pos hbeq, findName_cons]
      rw [if_neg (show ¬(d.name = k') by rw [hd]; exact Ne.symm h),
        if_neg (show ¬(q.name = k') by rw [hq]; exact Ne.symm h)]
      exact ih
    · have hbeq : ¬((q.name == k) = true) := by simpa using hq
      simp only [List.map_cons, if_neg hbeq, findName_cons]
      by_cases hq2 : q.name = k'
      · rw [if_pos hq2, if_pos hq2]
      · rw [if_neg hq2, if_neg hq2]
        exact ih

theorem find?_map_define_self (t : List JsProp) (k : String) (d : JsProp)
    (hd : d.name = k)
    (hfound : (t.find? (fun p => p.name == k)).isSome) :
    (t.map (fun p => if p.name == k then d else p)).find?
      (fun p => p.name == k) = some d := by
  induction t with
  | nil => simp at hfound
  | cons q t ih =>
    by_cases hq : q.name = k
    · have hbeq : (q.name == k) = true := by simpa using hq
      simp only [List.map_cons, if_pos hbeq, findName_cons]
      rw [if_pos hd]
    · have hbeq : ¬((q.name == k) = true) := by simpa using hq
      simp only [List.map_cons, if_neg hbeq, findName_cons] at hfound ⊢
      rw [if_neg hq]
      rw [if_neg hq] at hfound
      exact ih hfound

theorem findName_singleton_ne (d : JsProp) (k' : String) (h : ¬(d.name = k')) :
    List.find? (fun p => p.name == k') [d] = none := by
  rw [show ([d] : List JsProp) = d :: [] from rfl, findName_cons, if_neg h]
  rfl

theorem getOwn_setPropObj_ne (o : JsObj) (k k' : String) (v : JsVal) (h : k' ≠ k) :
    getOwn (setPropObj o k v) k' = getOwn o k' := by
  unfold setPropObj getOwn
  split
  · simp only [JsObj.props_mk]
    exact find?_map_setProp_ne o.props k k' v h
  · simp only [JsObj.props_mk]
    rw [List.find?_append,
      findName_singleton_ne (JsProp.mk k v true) k' (by simpa using Ne.symm h),
      Option.or_none]

theorem getOwnVal_setPropObj_self (o : JsObj) (k : String) (v : JsVal) :
    getOwnVal (setPropObj o k v) k = some v := by
  unfold getOwnVal getOwn setPropObj
  split
  next hfound =>
    simp only [JsObj.props_mk]
    exact find?_map_setProp_self o.props k v hfound
  next hnot =>
    simp only [JsObj.props_mk]
    rw [List.find?_append,
      Option.not_isSome_iff_eq_none.mp hnot, Option.none_or,
      show ([JsProp.mk k v true] : List JsProp) = JsProp.mk k v true :: [] from rfl,
      findName_cons, if_pos (by simp)]
    rfl

theorem getOwn_defineProp_self (o : JsObj) (k : String) (d : JsProp) (hd : d.name = k) :
    getOwn (defineProp o k d) k = some d := by
  unfold defineProp getOwn
  split
  next hfound =>
    simp only [JsObj.props_mk]
    exact find?_map_define_self o.props k d hd hfound
  next hnot =>
    simp only [JsObj.props_mk]
    rw [List.find?_append,
      Option.not_isSome_iff_eq_none.mp hnot, Option.none_or,
      show ([d] : List JsProp) = d :: [] from rfl,
      findName_cons, if_pos hd]

theorem getOwn_defineProp_ne (o : JsObj) (k k' : String) (d : JsProp)
    (hd : d.name = k) (h : k' ≠ k) :
    getOwn (defineProp o k d) k' = getOwn o k' := by
  unfold defineProp getOwn
  split
  · simp only [JsObj.props_mk]
    exact find?_map_define_ne o.props k k' d hd h
  · simp only [JsObj.props_mk]
    rw [List.find?_append,
      findName_singleton_ne d k' (by rw [hd]; exact Ne.symm h),
      Option.or_none]

theorem findName_eq_none_of_not_mem (ps : List JsProp) (k : String)
    (h : k ∉ ps.map JsProp.name) :
    ps.find? (fun p => p.name == k) = none := by
  rw [List.find?_eq_none]
  intro x hx hpx
  apply h
  have hxk : x.name = k := by simpa using hpx
  rw [← hxk]
  exact List.mem_map_of_mem JsProp.name hx

theorem foldl_setProp_lookup (ps : List JsProp) (t : JsObj) (k : String)
    (hnd : (ps.map JsProp.name).Nodup) :
    getOwnVal (ps.foldl (fun acc p => setPropObj acc p.name p.value) t) k =
      Option.or (Option.map JsProp.value (ps.find? (fun p => p.name == k)))
        (getOwnVal t k) := by
  induction ps generalizing t with
  | nil => simp
  | cons q qs ih =>
    have hnd2 : (qs.map JsProp.name).Nodup := (List.nodup_cons.mp (by simpa using hnd)).2
    have hqnot : q.name ∉ qs.map JsProp.name := (List.nodup_cons.mp (by simpa using hnd)).1
    simp only [List.foldl_cons, findName_cons]
    by_cases hq : q.name = k
    · have hnone : qs.find? (fun p => p.name == k) = none := by
        apply findName_eq_none_of_not_mem
        rw [← hq]
        exact hqnot
      rw [ih _ hnd2, hnone, if_pos hq]
      have : getOwnVal (setPropObj t q.name q.value) k = some q.value := by
        rw [hq]
        exact getOwnVal_setPropObj_self t k q.value
      rw [this]
      rfl
    · rw [ih _ hnd2, if_neg hq]
      have : getOwnVal (setPropObj t q.name q.value) k = getOwnVal t k := by
        unfold getOwnVal
        rw [getOwn_setPropObj_ne t q.name k q.value (fun hh => hq hh.symm)]
      rw [this]

theorem getOwnVal_objAssign (t s : JsObj) (k : String)
    (hnd : ((ownEnumProps s).map JsProp.name).Nodup) :
    getOwnVal (objAssign t s) k =
      Option.or (Option.map JsProp.value ((ownEnumProps s).find? (fun p => p.name == k)))
        (getOwnVal t k) :=
  foldl_setProp_lookup (ownEnumProps s) t k hnd

theorem foldl_copy_lookup (ns : List String) (t s : JsObj) (k : String) :
    getOwn (ns.foldl
      (fun acc k0 =>
        if (getOwn acc k0).isSome then acc
        else
          match getOwn s k0 with
          | some d => defineProp acc k0 d
          | none => acc) t) k =
    if k ∈ ns then Option.or (getOwn t k) (getOwn s k) else getOwn t k := by
  induction ns generalizing t with
  | nil => simp
  | cons n0 ns ih =>
    simp only [List.foldl_cons]
    rw [ih]
    by_cases hn : n0 = k
    · subst hn
      cases hT : getOwn t n0 with
      | some d0 =>
        rw [show (if (some d0 : Option JsProp).isSome = true then t
              else
                match getOwn s n0 with
                | some d => defineProp t n0 d
                | none => t) = t from if_pos rfl]
        by_cases hmem : n0 ∈ ns
        · rw [if_pos hmem, if_pos (List.mem_cons_self n0 ns), hT]
        · rw [if_neg hmem, if_pos (List.mem_cons_self n0 ns), hT]
          simp
      | none =>
        rw [show (if (none : Option JsProp).isSome = true then t
              else
                match getOwn s n0 with
                | some d => defineProp t n0 d
                | none => t) =
            (match getOwn s n0 with
             | some d => defineProp t n0 d
             | none => t) from if_neg (by simp)]
        cases hS : getOwn s n0 with
        | some d =>
          rw [show (match (some d : Option JsProp) with
                | some d => defineProp t n0 d
                | none => t) = defineProp t n0 d from rfl]
          rw [getOwn_defineProp_self t n0 d (getOwn_name hS)]
          by_cases hmem : n0 ∈ ns
          · rw [if_pos hmem, if_pos (List.mem_cons_self n0 ns)]
            simp [hT, hS]
          · rw [if_neg hmem, if_pos (List.mem_cons_self n0 ns)]
            simp [hT, hS]
        | none =>
          rw [show (match (none : Option JsProp) with
                | some d => defineProp t n0 d
                | none => t) = t from rfl]
          by_cases hmem : n0 ∈ ns
          · rw [if_pos hmem, if_pos (List.mem_cons_self n0 ns)]
            simp [hT, hS]
          · rw [if_neg hmem, if_pos (List.mem_cons_self n0 ns)]
            simp [hT, hS]
    · have hacc : getOwn
          (if (getOwn t n0).isSome = true then t
           else
             match getOwn s n0 with
             | some d => defineProp t n0 d
             | none => t) k = getOwn t k := by
        split
        · rfl
        · cases hS : getOwn s n0 with
          | some d =>
            exact getOwn_defineProp_ne t n0 k d (getOwn_name hS) (fun hh => hn hh.symm)
          | none => rfl
      rw [hacc]
      by_cases hmem : k ∈ ns
      · rw [if_pos hmem, if_pos (List.mem_cons_of_mem n0 hmem)]
      · rw [if_neg hmem, if_neg (show ¬(k ∈ n0 :: ns) by
          intro hh
          rcases List.mem_cons.mp hh with hh2 | hh2
          · exact hn hh2.symm
          · exact hmem hh2)]

theorem getOwn_copyOwnPropsIfNotPresent (t s : JsObj) (k : String) :
    getOwn (copyOwnPropsIfNotPresent t s) k = Option.or (getOwn t k) (getOwn s k) := by
  unfold copyOwnPropsIfNotPresent
  rw [foldl_copy_lookup]
  by_cases hmem : k ∈ ownPropNames s
  · rw [if_pos hmem]
  · rw [if_neg hmem]
    have hnone : getOwn s k = none :=
      findName_eq_none_of_not_mem s.props k hmem
    rw [hnone, Option.or_none]

theorem chainDesc_mk (props : List JsProp) (proto : Option JsObj) (k : String) :
    chainDesc (.mk props proto) k =
      Option.or (getOwn (.mk props proto) k)
        (match proto with
         | some parent => chainDesc parent k
         | none => none) := by
  cases proto with
  | some parent => rfl
  | none => rfl

theorem getOwn_copyChain (t s : JsObj) (k : String) :
    getOwn (copyChain t s) k = Option.or (getOwn t k) (chainDesc s k) := by
  induction t, s using copyChain.induct with
  | case1 target ps parent t1 ih =>
    rw [show copyChain target (JsObj.mk ps (some parent)) =
          copyChain (copyOwnPropsIfNotPresent target (JsObj.mk ps (some parent))) parent
        from rfl]
    rw [ih, getOwn_copyOwnPropsIfNotPresent, chainDesc_mk, Option.or_assoc]
  | case2 target ps =>
    rw [show copyChain target (JsObj.mk ps none) =
          copyOwnPropsIfNotPresent target (JsObj.mk ps none) from rfl]
    rw [getOwn_copyOwnPropsIfNotPresent, chainDesc_mk, Option.or_none]

theorem getOwn_copyOwnProps_pair (ro mo : JsObj) (k : String) :
    getOwn (copyOwnProps JsObj.empty [ro, mo]) k =
      Option.or (chainDesc ro k) (chainDesc mo k) := by
  unfold copyOwnProps
  simp only [List.foldl_cons, List.foldl_nil]
  rw [getOwn_copyChain, getOwn_copyChain]
  rw [show getOwn JsObj.empty k = none from rfl, Option.none_or]

/-! MockList lemmas. -/

theorem fillList_length (env : MockEnv) (w : Option Nat) (ctx : MCtx) (ft : GType) :
    ∀ (n : Nat) (rs : RStream) (xs : List JsVal) (rsf : RStream),
      fillList env w ctx ft n rs = .ok (xs, rsf) → xs.length = n := by
  intro n
  induction n with
  | zero =>
    intro rs xs rsf h
    rw [fillList] at h
    simp only [Except.ok.injEq, Prod.mk.injEq] at h
    rw [← h.1]
    rfl
  | succ k ih =>
    intro rs xs rsf h
    rw [fillList] at h
    split at h
    · simp at h
    · split at h
      · simp at h
      · rename_i v rs1 helem xs2 rs2 hrec
        simp only [Except.ok.injEq, Prod.mk.injEq] at h
        rw [← h.1]
        simp [ih _ _ _ hrec]

theorem mergeMocks_notArr (g v : JsVal) (h : ∀ xs, v ≠ .arr xs) :
    mergeMocks g v = if isObject v then mergeObjects g v else v := by
  cases v with
  | arr xs => exact absurd rfl (h xs)
  | undefined => rw [mergeMocks]; exact fun elems heq => JsVal.noConfusion heq
  | null => rw [mergeMocks]; exact fun elems heq => JsVal.noConfusion heq
  | bool b => rw [mergeMocks]; exact fun elems heq => JsVal.noConfusion heq
  | num q => rw [mergeMocks]; exact fun elems heq => JsVal.noConfusion heq
  | str s => rw [mergeMocks]; exact fun elems heq => JsVal.noConfusion heq
  | obj o => rw [mergeMocks]; exact fun elems heq => JsVal.noConfusion heq
  | fnRef i => rw [mergeMocks]; exact fun elems heq => JsVal.noConfusion heq
  | mockListV l w => rw [mergeMocks]; exact fun elems heq => JsVal.noConfusion heq

theorem mlRandint_bounds (low high : Int) (r : Rat) (hlh : low ≤ high)
    (h0 : 0 ≤ r) (h1 : r < 1) :
    low ≤ mlRandint low high r ∧ mlRandint low high r ≤ high := by
  unfold mlRandint
  have hlhQ : ((low : Rat) ≤ (high : Rat)) := by exact_mod_cast hlh
  have hn : (0 : Rat) < (high : Rat) - low + 1 := by linarith
  constructor
  · have hfl : (0 : Int) ≤ ⌊r * ((high : Rat) - low + 1)⌋ := by
      apply Int.le_floor.mpr
      push_cast
      exact mul_nonneg h0 (le_of_lt hn)
    omega
  · have hfl : ⌊r * ((high : Rat) - low + 1)⌋ < high - low + 1 := by
      apply Int.floor_lt.mpr
      push_cast
      calc r * ((high : Rat) - low + 1) < 1 * ((high : Rat) - low + 1) :=
            mul_lt_mul_of_pos_right h1 hn
        _ = (high : Rat) - low + 1 := one_mul _
    omega

theorem mlRandint_eq_iff (low high k : Int) (r : Rat) (hlh : low ≤ high) :
    mlRandint low high r = k ↔
      (((k : Rat) - low) / ((high : Rat) - low + 1) ≤ r ∧
        r < ((k : Rat) - low + 1) / ((high : Rat) - low + 1)) := by
  unfold mlRandint
  have hlhQ : ((low : Rat) ≤ (high : Rat)) := by exact_mod_cast hlh
  have hn : (0 : Rat) < (high : Rat) - low + 1 := by linarith
  constructor
  · intro h
    have hfl : ⌊r * ((high : Rat) - low + 1)⌋ = k - low := by omega
    have hiff := Int.floor_eq_iff.mp hfl
    constructor
    · rw [div_le_iff hn]
      calc ((k : Rat) - low) = ((k - low : Int) : Rat) := by push_cast; ring
        _ ≤ r * ((high : Rat) - low + 1) := hiff.1
    · rw [lt_div_iff hn]
      calc r * ((high : Rat) - low + 1) < (k - low : Int) + 1 := hiff.2
        _ = (k : Rat) - low + 1 := by push_cast; ring
  · intro ⟨ha, hb⟩
    have hfl : ⌊r * ((high : Rat) - low + 1)⌋ = k - low := by
      apply Int.floor_eq_iff.mpr
      constructor
      · rw [div_le_iff hn] at ha
        calc ((k - low : Int) : Rat) = (k : Rat) - low := by push_cast; ring
          _ ≤ r * ((high : Rat) - low + 1) := ha
      · rw [lt_div_iff hn] at hb
        calc r * ((high : Rat) - low + 1) < (k : Rat) - low + 1 := hb
          _ = ((k - low : Int) : Rat) + 1 := by push_cast; ring
    omega

/-- C10 helper and C4 helper: a negative fixed length makes new Array throw. -/
theorem mlMock_fixed_neg (env : MockEnv) (nInt : Int) (w : Option Nat) (ctx : MCtx)
    (ft : GType) (rs : RStream) (hn : nInt < 0) :
    mlMock env (.fixed nInt) w ctx ft rs = .error rangeErrorMsg := by
  have hc : mlCount (.fixed nInt) rs = .error rangeErrorMsg := by
    simp only [mlCount]
    rw [if_pos hn]
  rw [mlMock, hc]

/-! Sample values used by the witnesses. -/

def emptySchema : SchemaModel :=
  { queryTypeName := none
    mutationTypeName := none
    objectFields := []
    possibleTypes := []
    typeMap := []
    resolveTypes := [] }

def zeroStream : RStream := fun _ => 0

def sampleUuid : Rat → String := fun _ => "00000000-0000-4000-8000-000000000000"

def sampleCtx : MCtx :=
  { root := .undefined
    args := .obj JsObj.empty
    ctxt := .obj JsObj.empty
    info := .obj JsObj.empty }

/-- An environment whose every function returns the number 33. -/
def env33 : MockEnv :=
  { fenv := fun _ _ => JsVal.num 33
    uuidV4 := sampleUuid
    mockFns := []
    schema := emptySchema }

/-- C10: MockList construction never validates the length; only a second
argument that is neither undefined nor a function is rejected, and a negative
length surfaces later, when mock builds the array. -/
theorem c10_mocklist_constructor_unvalidated :
    (∀ len : MLLen, mockListConstructor len .undefined = .ok (.mockListV len none)) ∧
    (∀ (len : MLLen) (fid : Nat),
        mockListConstructor len (.fnRef fid) = .ok (.mockListV len (some fid))) ∧
    (∀ (len : MLLen) (w : JsVal), w ≠ .undefined → (∀ fid, w ≠ .fnRef fid) →
        mockListConstructor len w =
          .error "Second argument to MockList must be a function or undefined") ∧
    (∀ (env : MockEnv) (nInt : Int) (w : Option Nat) (ctx : MCtx) (ft : GType)
        (rs : RStream), nInt < 0 →
        mlMock env (.fixed nInt) w ctx ft rs = .error rangeErrorMsg) := by
  refine ⟨fun len => rfl, fun len fid => rfl, ?_, ?_⟩
  · intro len w hu hf
    cases w with
    | undefined => exact absurd rfl hu
    | fnRef fid => exact absurd rfl (hf fid)
    | null => rfl
    | bool b => rfl
    | num q => rfl
    | str s => rfl
    | arr xs => rfl
    | obj o => rfl
    | mockListV l wr => rfl
  · intro env nInt w ctx ft rs hn
    exact mlMock_fixed_neg env nInt w ctx ft rs hn

/-- C10 witness: a [5, 2] pair and a negative fixed length are accepted at
construction; a non-function second argument is rejected; the negative length
errors at mock time. -/
theorem c10_witness :
    mockListConstructor (.range 5 2) .undefined = .ok (.mockListV (.range 5 2) none) ∧
    mockListConstructor (.fixed (-3)) .undefined = .ok (.mockListV (.fixed (-3)) none) ∧
    mockListConstructor (.fixed 2) (.str "boom") =
      .error "Second argument to MockList must be a function or undefined" ∧
    mlMock env33 (.fixed (-3)) none sampleCtx (GType.scalarT "Int") zeroStream =
      .error rangeErrorMsg := by
  refine ⟨c10_mocklist_constructor_unvalidated.1 _,
    c10_mocklist_constructor_unvalidated.1 _,
    c10_mocklist_constructor_unvalidated.2.2.1 _ _
      (fun h => JsVal.noConfusion h) (fun fid h => JsVal.noConfusion h),
    c10_mocklist_constructor_unvalidated.2.2.2 env33 (-3) none sampleCtx
      (GType.scalarT "Int") zeroStream (by omega)⟩

/-- C4: a fixed length n produces exactly n elements; a [low, high] pair draws
the length per call, uniformly in [low, high]: every produced length lies in
the interval, the preimage of each admissible length under the draw is the
interval [(k-low)/(high-low+1), (k-low+1)/(high-low+1)) of measure
1/(high-low+1), and every admissible length is realized by some draw. -/
theorem c4_mocklist_length :
    (∀ (env : MockEnv) (n : Nat) (w : Option Nat) (ctx : MCtx) (ft : GType)
        (rs rsf : RStream) (v : JsVal),
        mlMock env (.fixed (n : Int)) w ctx ft rs = .ok (v, rsf) →
        ∃ xs : List JsVal, v = .arr xs ∧ xs.length = n) ∧
    (∀ (env : MockEnv) (low high : Int) (w : Option Nat) (ctx : MCtx) (ft : GType)
        (rs rsf : RStream) (v : JsVal),
        low ≤ high → 0 ≤ rhead rs → rhead rs < 1 →
        mlMock env (.range low high) w ctx ft rs = .ok (v, rsf) →
        ∃ xs : List JsVal, v = .arr xs ∧
          low ≤ (xs.length : Int) ∧ (xs.length : Int) ≤ high) ∧
    (∀ (low high k : Int) (r : Rat), low ≤ high →
        (mlRandint low high r = k ↔
          (((k : Rat) - low) / ((high : Rat) - low + 1) ≤ r ∧
            r < ((k : Rat) - low + 1) / ((high : Rat) - low + 1)))) ∧
    (∀ (low high k : Int), low ≤ k → k ≤ high →
        ∃ r : Rat, 0 ≤ r ∧ r < 1 ∧ mlRandint low high r = k) := by
  refine ⟨?_, ?_, fun low high k r hlh => mlRandint_eq_iff low high k r hlh, ?_⟩
  · intro env n w ctx ft rs rsf v h
    rw [mlMock] at h
    simp only [mlCount] at h
    rw [if_neg (show ¬((n : Int) < 0) by omega)] at h
    rw [Int.toNat_ofNat] at h
    cases hrec : fillList env w ctx ft n rs with
    | error e => simp [hrec] at h
    | ok pair =>
      obtain ⟨xs, rs2⟩ := pair
      simp only [hrec, Except.ok.injEq, Prod.mk.injEq] at h
      refine ⟨xs, h.1.symm, ?_⟩
      exact fillList_length env w ctx ft _ _ xs rs2 hrec
  · intro env low high w ctx ft rs rsf v hlh h0 h1 h
    have hb := mlRandint_bounds low high (rhead rs) hlh h0 h1
    rw [mlMock] at h
    simp only [mlCount] at h
    by_cases hneg : mlRandint low high (rhead rs) < 0
    · rw [if_pos hneg] at h
      simp at h
    · rw [if_neg hneg] at h
      cases hrec : fillList env w ctx ft
          (mlRandint low high (rhead rs)).toNat (rtail rs) with
      | error e => simp [hrec] at h
      | ok pair =>
        obtain ⟨xs, rs2⟩ := pair
        simp only [hrec, Except.ok.injEq, Prod.mk.injEq] at h
        refine ⟨xs, h.1.symm, ?_, ?_⟩
        · have hlen := fillList_length env w ctx ft _ _ xs rs2 hrec
          omega
        · have hlen := fillList_length env w ctx ft _ _ xs rs2 hrec
          omega
  · intro low high k hlk hkh
    have hlh : low ≤ high := le_trans hlk hkh
    have hn : (0 : Rat) < (high : Rat) - low + 1 := by
      have : ((low : Rat) ≤ (high : Rat)) := by exact_mod_cast hlh
      linarith
    refine ⟨((k : Rat) - low) / ((high : Rat) - low + 1), ?_, ?_, ?_⟩
    · apply div_nonneg _ (le_of_lt hn)
      have : ((low : Rat) ≤ (k : Rat)) := by exact_mod_cast hlk
      linarith
    · rw [div_lt_one hn]
      have : ((k : Rat) ≤ (high : Rat)) := by exact_mod_cast hkh
      linarith
    · rw [mlRandint_eq_iff low high k _ hlh]
      refine ⟨le_refl _, ?_⟩
      rw [div_lt_div_iff hn hn]
      nlinarith [hn]

/-- Evaluation helper for the C4 witness: with the constant generator, every
element of the fill loop is the number 33. -/
theorem fillList_env33 (n : Nat) (rs : RStream) :
    fillList env33 (some 0) sampleCtx (GType.scalarT "T") n rs =
      .ok (List.replicate n (JsVal.num 33), rs) := by
  induction n generalizing rs with
  | zero =>
    rw [fillList]
    rfl
  | succ k ih =>
    rw [fillList]
    have he : fillElem env33 (some 0) sampleCtx (GType.scalarT "T") rs =
        .ok (JsVal.num 33, rs) := by
      rw [fillElem.eq_def]
      rfl
    simp only [he, ih, List.replicate_succ]

/-- C4 witness: MockList(3) with a constant generator yields exactly 3
elements; the uniform characterization and surjectivity apply at [10, 20]. -/
theorem c4_witness :
    (∃ xs : List JsVal,
      JsVal.arr (List.replicate 3 (JsVal.num 33)) = .arr xs ∧ xs.length = 3) ∧
    (mlRandint 10 20 0 = 10 ↔
      (((10 : Rat) - 10) / ((20 : Rat) - 10 + 1) ≤ 0 ∧
        (0 : Rat) < ((10 : Rat) - 10 + 1) / ((20 : Rat) - 10 + 1))) ∧
    (∃ r : Rat, 0 ≤ r ∧ r < 1 ∧ mlRandint 10 20 r = 17) := by
  refine ⟨?_, ?_, ?_⟩
  · apply c4_mocklist_length.1 env33 3 (some 0) sampleCtx (GType.scalarT "T")
      zeroStream zeroStream
    rw [mlMock]
    have hc : mlCount (.fixed ((3 : Nat) : Int)) zeroStream = .ok (3, zeroStream) := by
      simp [mlCount]
    simp only [hc, fillList_env33]
  · exact c4_mocklist_length.2.2.1 10 20 10 0 (by omega)
  · exact c4_mocklist_length.2.2.2 10 20 17 (by omega) (by omega)

/-- C7: for union and interface types, assignResolveType installs the
typename-based fallback resolver unless the Preserve flag is set and an
existing resolver with at least one declared parameter is present, in which
case the existing one is kept untouched; the fallback looks the concrete type
up in the schema type map under the typename field of the resolved value. -/
theorem c7_assign_resolve_type (preserveResolvers : Bool) (tpe : GType)
    (current : Option RTFn)
    (habs : isAbstractType (getNamedType (getNullableType tpe)) = true) :
    (∀ f, current = some f → preserveResolvers = true → f.arity ≠ 0 →
        assignResolveType preserveResolvers tpe current = current) ∧
    ((preserveResolvers = false ∨ current = none ∨
        (∀ f, current = some f → f.arity = 0)) →
      assignResolveType preserveResolvers tpe current = some fallbackResolveType) ∧
    (∀ (data : JsVal) (tm : List (String × GType)),
        fallbackResolveType.run data tm =
          lookupStr tm (jsKeyString (jsGetVal data "typename"))) := by
  refine ⟨?_, ?_, fun data tm => rfl⟩
  · intro f hc hp ha
    subst hc
    subst hp
    unfold assignResolveType
    rw [if_pos]
    simp only [habs, if_true]
    simp [ha]
  · intro hdisj
    unfold assignResolveType
    rw [if_neg, if_pos (by simp [habs])]
    simp only [habs, if_true]
    rcases hdisj with hp | hc | ha
    · subst hp
      simp
    · subst hc
      simp
    · cases hcur : current with
      | none => simp
      | some f => simp [ha f hcur]

/-- C7 witness: with Preserve set and a 3-parameter existing resolver on a
union type it is kept; with Preserve unset it is replaced by the fallback,
and the fallback reads typename and consults the type map. -/
theorem c7_witness :
    assignResolveType true (GType.unionT "U" ["A", "B"]) (some fallbackResolveType) =
      some fallbackResolveType ∧
    assignResolveType false (GType.unionT "U" ["A", "B"]) (some fallbackResolveType) =
      some fallbackResolveType ∧
    fallbackResolveType.run
        (.obj (.mk [.mk "typename" (.str "A") true] none)) [("A", GType.objectT "A")] =
      some (GType.objectT "A") := by
  refine ⟨?_, ?_, ?_⟩
  · exact (c7_assign_resolve_type true (GType.unionT "U" ["A", "B"])
      (some fallbackResolveType) rfl).1 fallbackResolveType rfl rfl (by decide)
  · exact (c7_assign_resolve_type false (GType.unionT "U" ["A", "B"])
      (some fallbackResolveType) rfl).2.1 (Or.inl rfl)
  · rw [(c7_assign_resolve_type false (GType.unionT "U" ["A", "B"])
      (some fallbackResolveType) rfl).2.2]
    rfl

/-- C8: the three configuration errors of addMockFunctionsToSchema: a missing
schema, a registry argument that is not a keyed object, and a non-callable
registry entry; each error is raised by the validation prefix, for every
schema alike, before any field is touched. -/
theorem c8_setup_validation (fenv : Nat → MCtx → JsVal) (uuid : Rat → String) :
    (∀ (mocks : JsVal) (p : Bool),
        addMockFunctionsToSchema fenv uuid none mocks p =
          .error "Must provide schema to mock") ∧
    (∀ (s : SchemaModel) (mocks : JsVal) (p : Bool), isObject mocks = false →
        addMockFunctionsToSchema fenv uuid (some s) mocks p =
          .error "mocks must be of type Object") ∧
    (∀ (s : SchemaModel) (mocks : JsVal) (p : Bool) (bad : String × JsVal),
        isObject mocks = true →
        (jsvalEntries mocks).find? (fun e => !(e.2 matches JsVal.fnRef _)) = some bad →
        addMockFunctionsToSchema fenv uuid (some s) mocks p =
          .error ("mockFunctionMap[" ++ bad.1 ++ "] must be a function")) := by
  refine ⟨fun mocks p => rfl, ?_, ?_⟩
  · intro s mocks p hobj
    simp only [addMockFunctionsToSchema]
    rw [if_pos (by simp [hobj])]
  · intro s mocks p bad hobj hbad
    simp only [addMockFunctionsToSchema]
    rw [if_neg (by simp [hobj])]
    simp only [hbad]

/-- C8 witness: a missing schema, a numeric registry argument, and a registry
with a non-function entry each produce their configuration error, with a
schema argument whose type map is nonempty left alone. -/
theorem c8_witness :
    addMockFunctionsToSchema (fun _ _ => JsVal.undefined) sampleUuid none
        (.obj JsObj.empty) false = .error "Must provide schema to mock" ∧
    addMockFunctionsToSchema (fun _ _ => JsVal.undefined) sampleUuid (some emptySchema)
        (.num 4) false = .error "mocks must be of type Object" ∧
    addMockFunctionsToSchema (fun _ _ => JsVal.undefined) sampleUuid (some emptySchema)
        (.obj (.mk [.mk "Query" (.str "notAFunction") true] none)) false =
      .error "mockFunctionMap[Query] must be a function" := by
  refine ⟨(c8_setup_validation _ _).1 _ _, ?_, ?_⟩
  · exact (c8_setup_validation _ _).2.1 emptySchema (.num 4) false rfl
  · exact (c8_setup_validation _ _).2.2 emptySchema _ false
      ("Query", .str "notAFunction") rfl rfl

/-- C9: a root query/mutation field whose registry sub-entry probes falsy is
treated exactly like an absent sub-entry: the ordinary mockType resolver is
chosen and installed. -/
theorem c9_falsy_root_sub_entry (env : MockEnv) (typeName fieldName : String)
    (rid : Nat)
    (hq : env.schema.queryTypeName = some typeName)
    (hreg : lookupStr env.mockFns typeName = some rid)
    (hfalsy : jsTruthy (jsGetVal (env.fenv rid probeCtx) fieldName) = false) :
    chooseMockResolver env typeName fieldName = ResolverChoice.ordinary ∧
    (∀ (ft : GType) (preserveResolvers : Bool),
        installedResolver env preserveResolvers ⟨ft, none⟩ typeName fieldName =
          mockResolverFor env ResolverChoice.ordinary ft typeName fieldName) := by
  have hchoice : chooseMockResolver env typeName fieldName = ResolverChoice.ordinary := by
    unfold chooseMockResolver
    rw [hq]
    simp only [hreg]
    rw [if_pos (by simp)]
    rw [if_neg (by simp [hfalsy])]
  refine ⟨hchoice, ?_⟩
  intro ft preserveResolvers
  unfold installedResolver
  rw [hchoice]

/-- The environment of the C9 witness: a root-type registry entry whose probe
yields returnInt 0 (falsy). -/
def env9 : MockEnv :=
  { fenv := fun _ _ => JsVal.obj (.mk [.mk "returnInt" (.num 0) true] none)
    uuidV4 := sampleUuid
    mockFns := [("RootQuery", 0)]
    schema := { emptySchema with queryTypeName := some "RootQuery" } }

/-- C9 witness: registry entry for the root type returning returnInt 0 (falsy)
for the probed field name. -/
theorem c9_witness :
    chooseMockResolver env9 "RootQuery" "returnInt" = ResolverChoice.ordinary := by
  exact (c9_falsy_root_sub_entry env9 "RootQuery" "returnInt" 0 rfl rfl rfl).1

/-- The environment of the C3 counterexample: the root-type registry entry
yields f = 7. -/
def env3 : MockEnv :=
  { fenv := fun _ _ => JsVal.obj (.mk [.mk "f" (.num 7) true] none)
    uuidV4 := sampleUuid
    mockFns := [("RootQuery", 0)]
    schema := { emptySchema with queryTypeName := some "RootQuery" } }

/-- The invocation context of the C3 counterexample: the caller supplies an
empty root object. -/
def ctx3 : MCtx :=
  { root := .obj JsObj.empty
    args := .obj JsObj.empty
    ctxt := .obj JsObj.empty
    info := .obj JsObj.empty }

/-- C3 counterexample: the claim says the caller-supplied root object is left
unchanged by the invocation; with a supplied (truthy) root, the installed
root-field resolver writes the sub-entry value directly onto the ambient root
(const updatedRoot = root || {} aliases it), so the caller's root is the
written object afterwards, not the empty object it supplied. -/
theorem c3_counterexample :
    ¬((rootFieldResolver env3 0 (GType.objectT "Q") "RootQuery" "f" ctx3
        zeroStream).2 = ctx3.root) := by
  intro h
  have e1 : (rootFieldResolver env3 0 (GType.objectT "Q") "RootQuery" "f" ctx3
      zeroStream).2 = JsVal.obj (.mk [.mk "f" (.num 7) true] none) := rfl
  rw [e1] at h
  have h2 := congrArg (fun v => jsGetVal v "f") h
  simp only [jsGetVal] at h2
  exact absurd h2 (by simp [chainDesc, ctx3, JsObj.empty, getOwn])

/-- C3 amended: the updated root aliases the ambient root instead of copying
it.  When the root is falsy the caller's root is untouched and a fresh object
is used; when the caller supplies a root object, the field entry is written
directly onto that object, so the write is visible to the caller after the
invocation; resolution then delegates to mockType on the updated root. -/
theorem c3_amended_root_aliasing (env : MockEnv) (rootMockId : Nat) (ftype : GType)
    (typeName fieldName : String) (ctx : MCtx) (rs : RStream) :
    (jsTruthy ctx.root = false →
      (rootFieldResolver env rootMockId ftype typeName fieldName ctx rs).2 = ctx.root) ∧
    (∀ o, ctx.root = .obj o →
      (rootFieldResolver env rootMockId ftype typeName fieldName ctx rs).2 =
        .obj (setPropObj o fieldName
          (jsGetVal (env.fenv rootMockId ctx) fieldName))) ∧
    ((rootFieldResolver env rootMockId ftype typeName fieldName ctx rs).1 =
      mockType env ftype (some typeName) (some fieldName)
        { ctx with
          root := (updatedRootPair ctx.root fieldName
            (jsGetVal (env.fenv rootMockId ctx) fieldName)).1 } rs) := by
  refine ⟨?_, ?_, rfl⟩
  · intro hfalsy
    show (updatedRootPair ctx.root fieldName
      (jsGetVal (env.fenv rootMockId ctx) fieldName)).2 = ctx.root
    unfold updatedRootPair
    rw [if_neg (by simp [hfalsy])]
  · intro o ho
    show (updatedRootPair ctx.root fieldName
        (jsGetVal (env.fenv rootMockId ctx) fieldName)).2 =
      .obj (setPropObj o fieldName (jsGetVal (env.fenv rootMockId ctx) fieldName))
    rw [ho]
    unfold updatedRootPair
    rw [if_pos (by simp [jsTruthy])]

/-- C3 amended witness: with an undefined root the caller's root stays
undefined; with a supplied empty root object the entry f = 7 is written onto
it. -/
theorem c3_amended_witness :
    (rootFieldResolver env3 0 (GType.objectT "Q") "RootQuery" "f"
      { ctx3 with root := .undefined } zeroStream).2 = JsVal.undefined ∧
    (rootFieldResolver env3 0 (GType.objectT "Q") "RootQuery" "f" ctx3
      zeroStream).2 =
      .obj (setPropObj JsObj.empty "f"
        (jsGetVal (env3.fenv 0 ctx3) "f")) := by
  constructor
  · exact (c3_amended_root_aliasing env3 0 (GType.objectT "Q") "RootQuery" "f"
      { ctx3 with root := .undefined } zeroStream).1 rfl
  · exact (c3_amended_root_aliasing env3 0 (GType.objectT "Q") "RootQuery" "f"
      ctx3 zeroStream).2.1 JsObj.empty rfl

/-- C2: the preserve-mode composed resolver runs both the mock and the
pre-existing resolution and merges their completed values: two record-shaped
values merge with the real value's descriptors (enumerable or not, own or
found along its prototype chain) taking precedence and the mock value filling
the rest; otherwise the real value is returned verbatim unless it is
undefined, in which case the mock value is returned. -/
theorem c2_preserve_merge :
    (∀ (mockResolver oldResolver : RFn) (ctx : MCtx) (rs rs1 rs2 : RStream)
        (mv rv : JsVal),
        mockResolver ctx rs = .ok (mv, rs1) → oldResolver ctx rs1 = .ok (rv, rs2) →
        composedResolver mockResolver oldResolver ctx rs =
          .ok (mergeMockAndReal mv rv, rs2)) ∧
    (∀ (mockedValue resolvedValue : JsVal) (om ro2 : JsObj),
        mockedValue = .obj om → resolvedValue = .obj ro2 →
        ∃ res, mergeMockAndReal mockedValue resolvedValue = .obj res ∧
          ∀ k, getOwn res k = Option.or (chainDesc ro2 k) (chainDesc om k)) ∧
    (∀ (mockedValue resolvedValue : JsVal),
        (isObject mockedValue && isObject resolvedValue) = false →
        (resolvedValue ≠ .undefined →
          mergeMockAndReal mockedValue resolvedValue = resolvedValue) ∧
        (resolvedValue = .undefined →
          mergeMockAndReal mockedValue resolvedValue = mockedValue)) := by
  refine ⟨?_, ?_, ?_⟩
  · intro m o ctx rs rs1 rs2 mv rv hm ho
    simp only [composedResolver, hm, ho]
  · intro mockedValue resolvedValue om ro2 hm hr
    subst hm
    subst hr
    refine ⟨copyOwnProps JsObj.empty [ro2, om], ?_, ?_⟩
    · unfold mergeMockAndReal
      rw [if_pos (by simp [isObject])]
      rfl
    · intro k
      exact getOwn_copyOwnProps_pair ro2 om k
  · intro mockedValue resolvedValue hno
    constructor
    · intro hru
      unfold mergeMockAndReal
      rw [if_neg (by simp [hno])]
      cases resolvedValue with
      | undefined => exact absurd rfl hru
      | null => rfl
      | bool b => rfl
      | num q => rfl
      | str s => rfl
      | arr xs => rfl
      | obj o => rfl
      | fnRef i => rfl
      | mockListV l w => rfl
    · intro hru
      subst hru
      unfold mergeMockAndReal
      rw [if_neg (by simp [hno])]

/-- C2 witness: a real value returnInt 12 with a non-enumerable extra own
property merged with a mock value returnInt 3, returnString woot: the real
value wins on the collision, its non-enumerable property is carried over, and
the mock fills the missing key; a real null beats the mock verbatim. -/
theorem c2_witness :
    (∃ res, mergeMockAndReal
        (.obj (.mk [.mk "returnInt" (.num 3) true,
                    .mk "returnString" (.str "woot") true] none))
        (.obj (.mk [.mk "returnInt" (.num 12) true,
                    .mk "hidden" (.num 99) false] none)) = .obj res ∧
      ∀ k, getOwn res k =
        Option.or (chainDesc (.mk [.mk "returnInt" (.num 12) true,
                                   .mk "hidden" (.num 99) false] none) k)
          (chainDesc (.mk [.mk "returnInt" (.num 3) true,
                           .mk "returnString" (.str "woot") true] none) k)) ∧
    mergeMockAndReal (.obj JsObj.empty) JsVal.null = JsVal.null := by
  constructor
  · exact c2_preserve_merge.2.1 _ _ _ _ rfl rfl
  · exact ((c2_preserve_merge.2.2 (.obj JsObj.empty) JsVal.null) rfl).1
      (fun h => JsVal.noConfusion h)

theorem step1Value_plain (env : MockEnv) (ft : GType) (key : String) (ctx : MCtx)
    (rs : RStream) (existing : JsVal) (hex : jsGetVal ctx.root key = existing)
    (hnotfn : ∀ fid, existing ≠ .fnRef fid) :
    step1Value env ft key ctx rs = .ok (existing, rs) := by
  rw [step1Value, hex]
  cases existing with
  | fnRef fid => exact absurd rfl (hnotfn fid)
  | undefined => rfl
  | null => rfl
  | bool b => rfl
  | num q => rfl
  | str s => rfl
  | arr xs => rfl
  | obj o => rfl
  | mockListV l w => rfl

/-- The step-1 path of mockType with a plain existing value and a registry
entry for the named type: the result is the merged value. -/
theorem mockType_existing (env : MockEnv) (tpe : GType) (tn : Option String)
    (fieldName : String) (ctx : MCtx) (rs : RStream) (existing : JsVal) (gid : Nat)
    (hguard : (jsTruthy ctx.root && !(isUndefined (jsGetVal ctx.root fieldName))) = true)
    (hex : jsGetVal ctx.root fieldName = existing)
    (hnotfn : ∀ fid, existing ≠ .fnRef fid)
    (hreg : mockFnFor env (getNamedType (getNullableType tpe)) = some gid) :
    mockType env tpe tn (some fieldName) ctx rs =
      .ok (mergeMocks (env.fenv gid ctx) existing, rs) := by
  rw [mockType.eq_def]
  simp only [Option.getD_some]
  rw [if_pos hguard]
  simp only [step1Value_plain env (getNullableType tpe) fieldName ctx rs existing hex
    hnotfn, hreg]

/-- C1: for a field invocation whose root already defines the field and whose
named type has a registry entry, the existing value is merged with the
factory value: a record-shaped existing value produces the Object.assign
union in which the existing value's keys win and factory-only keys are added,
a scalar existing value is returned unchanged (the factory value discarded),
and an array is merged element-wise. -/
theorem c1_existing_value_merge (env : MockEnv) (tpe : GType) (tn : Option String)
    (fieldName : String) (ctx : MCtx) (rs : RStream) (gid : Nat) (existing : JsVal)
    (hguard : (jsTruthy ctx.root && !(isUndefined (jsGetVal ctx.root fieldName))) = true)
    (hex : jsGetVal ctx.root fieldName = existing)
    (hnotfn : ∀ fid, existing ≠ .fnRef fid)
    (hreg : mockFnFor env (getNamedType (getNullableType tpe)) = some gid) :
    (∀ eo go, existing = .obj eo → env.fenv gid ctx = .obj go →
        (eo.props.map JsProp.name).Nodup →
        (∀ p ∈ eo.props, p.enumerable = true) →
        mockType env tpe tn (some fieldName) ctx rs =
          .ok (.obj (objAssign go eo), rs) ∧
        (∀ k, getOwnVal (objAssign go eo) k =
          Option.or (getOwnVal eo k) (getOwnVal go k))) ∧
    (isObject existing = false → (∀ xs, existing ≠ .arr xs) →
        mockType env tpe tn (some fieldName) ctx rs = .ok (existing, rs)) ∧
    (∀ xs, existing = .arr xs →
        mockType env tpe tn (some fieldName) ctx rs =
          .ok (.arr (xs.map (mergeMocks (env.fenv gid ctx))), rs)) := by
  have hcore := mockType_existing env tpe tn fieldName ctx rs existing gid hguard hex
    hnotfn hreg
  refine ⟨?_, ?_, ?_⟩
  · intro eo go heo hgo hnd henum
    have hown : ownEnumProps eo = eo.props := by
      unfold ownEnumProps
      rw [List.filter_eq_self]
      intro p hp
      exact henum p hp
    constructor
    · rw [hcore, heo, hgo]
      rw [mergeMocks_notArr _ _ (fun xs h => JsVal.noConfusion h)]
      rw [if_pos (show isObject (JsVal.obj eo) = true from rfl)]
      rfl
    · intro k
      have hnd2 : ((ownEnumProps eo).map JsProp.name).Nodup := by
        rw [hown]
        exact hnd
      rw [getOwnVal_objAssign go eo k hnd2, hown]
      rfl
  · intro hiso hnarr
    rw [hcore, mergeMocks_notArr _ _ hnarr, if_neg (by simp [hiso])]
  · intro xs hxs
    rw [hcore, hxs, mergeMocks_arr]

/-- The environment of the C1 witness: a registry entry for type T whose
factory returns a 1, b 2. -/
def env1 : MockEnv :=
  { fenv := fun _ _ =>
      JsVal.obj (.mk [.mk "a" (.num 1) true, .mk "b" (.num 2) true] none)
    uuidV4 := sampleUuid
    mockFns := [("T", 0)]
    schema := emptySchema }

/-- The invocation context of the C1 witness: the root already defines the
field f as the record b 3. -/
def ctx1 : MCtx :=
  { root := .obj (.mk [.mk "f" (.obj (.mk [.mk "b" (.num 3) true] none)) true] none)
    args := .obj JsObj.empty
    ctxt := .obj JsObj.empty
    info := .obj JsObj.empty }

/-- C1 witness: the existing record b 3 merged with the factory record
a 1, b 2 keeps b 3 and gains a 1. -/
theorem c1_witness :
    mockType env1 (GType.scalarT "T") none (some "f") ctx1 zeroStream =
      .ok (.obj (objAssign (.mk [.mk "a" (.num 1) true, .mk "b" (.num 2) true] none)
        (.mk [.mk "b" (.num 3) true] none)), zeroStream) ∧
    (∀ k, getOwnVal (objAssign
        (.mk [.mk "a" (.num 1) true, .mk "b" (.num 2) true] none)
        (.mk [.mk "b" (.num 3) true] none)) k =
      Option.or (getOwnVal (.mk [.mk "b" (.num 3) true] none) k)
        (getOwnVal (.mk [.mk "a" (.num 1) true, .mk "b" (.num 2) true] none) k)) := by
  exact (c1_existing_value_merge env1 (GType.scalarT "T") none "f" ctx1 zeroStream 0
      (.obj (.mk [.mk "b" (.num 3) true] none)) rfl rfl
      (fun fid h => JsVal.noConfusion h) rfl).1
    (.mk [.mk "b" (.num 3) true] none)
    (.mk [.mk "a" (.num 1) true, .mk "b" (.num 2) true] none)
    rfl rfl (by decide) (by decide)

/-- C5: a field whose null-stripped type is a custom scalar with no registry
entry and a name outside the default table fails at resolution time with
precisely the no-mock error naming the type; setup itself, with valid
arguments, always completes without error whatever fields the schema has. -/
theorem c5_no_mock_defined_error :
    (∀ (env : MockEnv) (tpe : GType) (n : String) (tn fn : Option String)
        (ctx : MCtx) (rs : RStream),
        getNullableType tpe = GType.scalarT n →
        (jsTruthy ctx.root &&
          !(isUndefined (jsGetVal ctx.root (fn.getD "undefined")))) = false →
        lookupStr env.mockFns n = none →
        n ≠ "Int" → n ≠ "Float" → n ≠ "String" → n ≠ "Boolean" → n ≠ "ID" →
        mockType env tpe tn fn ctx rs =
          .error ("No mock defined for type \"" ++ n ++ "\"")) ∧
    (∀ (fenv2 : Nat → MCtx → JsVal) (uuid2 : Rat → String) (s : SchemaModel)
        (mocks : JsVal) (p : Bool),
        isObject mocks = true →
        (jsvalEntries mocks).find? (fun e => !(e.2 matches JsVal.fnRef _)) = none →
        ∃ s2, addMockFunctionsToSchema fenv2 uuid2 (some s) mocks p = .ok s2) := by
  constructor
  · intro env tpe n tn fn ctx rs hft hguard hreg h1 h2 h3 h4 h5
    have hmf : mockFnFor env (GType.scalarT n) = none := by
      simp [mockFnFor, gname, hreg]
    have hdm : defaultMock env n = none := by
      simp [defaultMock, h1, h2, h3, h4, h5]
    rw [mockType.eq_def]
    simp only []
    rw [if_neg (by simp [hguard])]
    cases tpe with
    | nonNull t =>
      have ht : t = GType.scalarT n := hft
      subst ht
      simp only [getNullableType, hmf, gname, hdm]
    | scalarT m =>
      have hm : GType.scalarT m = GType.scalarT n := hft
      injection hm with hmn
      subst hmn
      simp only [getNullableType, hmf, gname, hdm]
    | list t => exact absurd hft (by simp [getNullableType])
    | objectT m => exact absurd hft (by simp [getNullableType])
    | unionT m ms => exact absurd hft (by simp [getNullableType])
    | interfaceT m => exact absurd hft (by simp [getNullableType])
    | enumT m vs => exact absurd hft (by simp [getNullableType])
  · intro fenv2 uuid2 s mocks p hobj hfind
    simp only [addMockFunctionsToSchema]
    rw [if_neg (by simp [hobj])]
    simp only [hfind]
    exact ⟨_, rfl⟩

/-- C5 witness: a custom scalar MissingMockType with an empty registry errors
with the exact message; setup on the empty schema with an empty registry
succeeds. -/
theorem c5_witness :
    mockType env33 (GType.scalarT "MissingMockType") (some "Q") (some "f")
        sampleCtx zeroStream =
      .error "No mock defined for type \"MissingMockType\"" ∧
    (∃ s2, addMockFunctionsToSchema (fun _ _ => JsVal.undefined) sampleUuid
        (some emptySchema) (.obj JsObj.empty) false = .ok s2) := by
  constructor
  · exact c5_no_mock_defined_error.1 env33 (GType.scalarT "MissingMockType")
      "MissingMockType" (some "Q") (some "f") sampleCtx zeroStream rfl rfl rfl
      (by decide) (by decide) (by decide) (by decide) (by decide)
  · exact c5_no_mock_defined_error.2 (fun _ _ => JsVal.undefined) sampleUuid emptySchema
      (.obj JsObj.empty) false rfl rfl

/-- C6: a list-typed field with no existing root value resolves to exactly two
elements, each produced by an independent recursive invocation of the
resolver on the element type (the second continues the random stream left by
the first). -/
theorem c6_list_default_two_elements (env : MockEnv) (tpe ofType : GType)
    (tn fn : Option String) (ctx : MCtx) (rs rs1 rs2 : RStream) (v1 v2 : JsVal)
    (hft : getNullableType tpe = GType.list ofType)
    (hguard : (jsTruthy ctx.root &&
      !(isUndefined (jsGetVal ctx.root (fn.getD "undefined")))) = false)
    (h1 : mockType env ofType none none ctx rs = .ok (v1, rs1))
    (h2 : mockType env ofType none none ctx rs1 = .ok (v2, rs2)) :
    mockType env tpe tn fn ctx rs = .ok (.arr [v1, v2], rs2) ∧
    [v1, v2].length = 2 := by
  refine ⟨?_, rfl⟩
  rw [mockType.eq_def]
  simp only []
  rw [if_neg (by simp [hguard])]
  cases tpe with
  | nonNull t =>
    have ht : t = GType.list ofType := hft
    subst ht
    simp only [getNullableType, h1, h2]
  | list t =>
    have hm : GType.list t = GType.list ofType := hft
    injection hm with hmn
    subst hmn
    simp only [getNullableType, h1, h2]
  | scalarT m => exact absurd hft (by simp [getNullableType])
  | objectT m => exact absurd hft (by simp [getNullableType])
  | unionT m ms => exact absurd hft (by simp [getNullableType])
  | interfaceT m => exact absurd hft (by simp [getNullableType])
  | enumT m vs => exact absurd hft (by simp [getNullableType])

/-- C6 witness: a field of type list of String with an undefined root yields
exactly the two independently generated default strings. -/
theorem c6_witness :
    mockType env33 (GType.list (GType.scalarT "String")) (some "Q") (some "f")
        sampleCtx zeroStream =
      .ok (.arr [.str "Hello World", .str "Hello World"], rtail (rtail zeroStream)) ∧
    ([JsVal.str "Hello World", JsVal.str "Hello World"] : List JsVal).length = 2 := by
  have h1 : mockType env33 (GType.scalarT "String") none none sampleCtx zeroStream =
      .ok (.str "Hello World", rtail zeroStream) := by
    rw [mockType.eq_def]
    rfl
  have h2 : mockType env33 (GType.scalarT "String") none none sampleCtx
      (rtail zeroStream) = .ok (.str "Hello World", rtail (rtail zeroStream)) := by
    rw [mockType.eq_def]
    rfl
  exact c6_list_default_two_elements env33 (GType.list (GType.scalarT "String"))
    (GType.scalarT "String") (some "Q") (some "f") sampleCtx zeroStream
    (rtail zeroStream) (rtail (rtail zeroStream)) (.str "Hello World")
    (.str "Hello World") rfl rfl h1 h2
